import Mathlib

/-!
# avalanchego: validator-set sampler and block-executor manager

A shallow embedding of

* `network/p2p/validators.go` (`Validators.refresh`, `Validators.Sample`, `Validators.Has`) and
* `vms/platformvm/block/executor/manager.go` (`manager.SetPreference`, `manager.Preferred`,
  `manager.VerifyTx`),

followed by the properties established about them.

Stateful methods become functions from the receiver's state (and the observations made of
the outside world during the call) to the new state, the ordered list of calls made on
external collaborators, and the returned value.  Every public method of `Validators` holds
`v.lock` for its whole body, so a call is one atomic step.
-/

namespace Avalanchego

/-- An `ids.NodeID`. -/
abbrev NodeID := Nat

/-- An `ids.ID` (block ids, subnet ids). -/
abbrev ID := Nat

/-- A Go `error` value other than nil.  `ErrChainNotSynced` is the sentinel declared in
`manager.go`; every other error is identified by a code. -/
inductive Error where
  | ErrChainNotSynced : Error
  | other (code : Nat) : Error
  deriving DecidableEq, Repr

namespace p2p

/-! ## Time -/

/-- Smallest `time.Duration` (an int64 count of nanoseconds). -/
def minDuration : Int := -(2 ^ 63)

/-- Largest `time.Duration`. -/
def maxDuration : Int := 2 ^ 63 - 1

/-- Go's `time.Since(t)` when the clock reads `now`: the difference `now - t` in
nanoseconds, saturated to the range of `time.Duration`. -/
def timeSince (now t : Int) : Int :=
  if now - t < minDuration then minDuration
  else if maxDuration < now - t then maxDuration
  else now - t

/-! ## The cached identity set -/

/-- Modelled from the spec: the type `set.SampleableSet` of package `utils/set`, whose
source is not included, holding "the cached identity set".  It is a duplicate-free sequence
of elements; `Add` appends an element that is absent, `Clear` empties the set, `Contains`
tests membership. -/
structure SampleableSet where
  elements : List NodeID
  deriving DecidableEq, Repr

namespace SampleableSet

/-- The method `Add` of the set: no effect when the element is already present. -/
def Add (s : SampleableSet) (x : NodeID) : SampleableSet :=
  if x ∈ s.elements then s else ⟨s.elements ++ [x]⟩

/-- The method `Clear` of the set. -/
def Clear (_s : SampleableSet) : SampleableSet := ⟨[]⟩

/-- The method `Contains` of the set. -/
def Contains (s : SampleableSet) (x : NodeID) : Bool := decide (x ∈ s.elements)

end SampleableSet

/-! ## State, environment and trace -/

/-- The mutable and configuration fields of `Validators`.  The collaborators `peers`, `log`
and `validators` are observed through `Env` and `Event`. -/
structure Validators where
  subnetID : ID
  validatorIDs : SampleableSet
  lastUpdated : Int
  maxValidatorSetStaleness : Int
  deriving DecidableEq, Repr

/-- What one call observes of the outside world.

* `peersHas` is `v.peers.has` at the time of the call;
* `now` is the clock reading taken by `time.Since` at the top of `refresh`;
* `nowStamp` is the clock reading taken by `time.Now()` at the bottom of `refresh`;
* `GetCurrentHeight` and `GetValidatorSet` are the answers of `v.validators`; a validator
  set is a Go map from identity to stake weight, given as the sequence of its entries in the
  order in which `range` visits them;
* `Sample` is the method `Sample` of the cached set, a random draw. -/
structure Env where
  peersHas : NodeID → Bool
  now : Int
  nowStamp : Int
  GetCurrentHeight : Except Error Nat
  GetValidatorSet : Nat → ID → Except Error (List (NodeID × Nat))
  Sample : SampleableSet → Int → List NodeID

/-- A call made on an external collaborator during `refresh`. -/
inductive Event where
  | GetCurrentHeight : Event
  | GetValidatorSet (height : Nat) (subnetID : ID) : Event
  | Warn (msg : String) (err : Error) : Event
  deriving DecidableEq, Repr

/-- The outcome of a method call: the receiver afterwards, the calls made, the value
returned. -/
structure Outcome (α : Type) where
  state : Validators
  events : List Event
  value : α

/-! ## `Validators` methods -/

/-- The method `refresh` of `Validators`. -/
def refresh (env : Env) (v : Validators) : Outcome Unit :=
  if timeSince env.now v.lastUpdated < v.maxValidatorSetStaleness then
    ⟨v, [], ()⟩
  else
    let v1 : Validators := { v with validatorIDs := v.validatorIDs.Clear }
    match env.GetCurrentHeight with
    | .error err =>
      ⟨v1, [.GetCurrentHeight, .Warn "failed to get current height" err], ()⟩
    | .ok height =>
      match env.GetValidatorSet height v1.subnetID with
      | .error err =>
        ⟨v1, [.GetCurrentHeight, .GetValidatorSet height v1.subnetID,
              .Warn "failed to get validator set" err], ()⟩
      | .ok validatorSet =>
        let v2 : Validators :=
          { v1 with validatorIDs :=
              validatorSet.foldl (fun s entry => s.Add entry.1) v1.validatorIDs }
        ⟨{ v2 with lastUpdated := env.nowStamp },
          [.GetCurrentHeight, .GetValidatorSet height v1.subnetID], ()⟩

/-- The filtering loop of `Sample`: identities that `peers` does not have are skipped, the
others are appended to `sampled` in order. -/
def keepConnected (peersHas : NodeID → Bool) (validatorIDs : List NodeID) : List NodeID :=
  validatorIDs.foldl
    (fun sampled validatorID =>
      if !peersHas validatorID then sampled else sampled ++ [validatorID])
    []

/-- The method `Sample` of `Validators`. -/
def Sample (env : Env) (v : Validators) (limit : Int) : Outcome (List NodeID) :=
  let r := refresh env v
  let validatorIDs := env.Sample r.state.validatorIDs limit
  ⟨r.state, r.events, keepConnected env.peersHas validatorIDs⟩

/-- The method `Has` of `Validators`. -/
def Has (env : Env) (v : Validators) (nodeID : NodeID) : Outcome Bool :=
  let r := refresh env v
  ⟨r.state, r.events, env.peersHas nodeID && r.state.validatorIDs.Contains nodeID⟩

/-- The number of refresh attempts in a trace: every attempt starts with exactly one call of
`GetCurrentHeight`. -/
def attempts (events : List Event) : Nat :=
  events.count Event.GetCurrentHeight

end p2p

namespace executor

/-! ## Block-executor manager -/

/-- The fields of the shared `backend` that `NewManager` sets and the manager's methods
could reach: the last accepted block and the map from block id to its pending state
(of a type `σ` left abstract). -/
structure backend (σ : Type) where
  lastAccepted : ID
  blkIDToState : List (ID × σ)

/-- The part of the transaction-executor `Backend` read by the manager: the bootstrapped
flag, as returned by `Bootstrapped.Get()`. -/
structure Backend where
  Bootstrapped : Bool
  deriving DecidableEq, Repr

/-- The Go struct `manager`. -/
structure manager (σ : Type) where
  backend : backend σ
  preferred : ID
  txExecutorBackend : Backend

/-- The constructor `NewManager`: the preference starts at the last accepted block and no
block has a pending state. -/
def NewManager {σ : Type} (lastAccepted : ID) (txExecutorBackend : Backend) : manager σ :=
  { backend := { lastAccepted := lastAccepted, blkIDToState := [] }
    preferred := lastAccepted
    txExecutorBackend := txExecutorBackend }

/-- The method `SetPreference` of `manager`: the manager afterwards and the returned
`updated`. -/
def SetPreference {σ : Type} (m : manager σ) (blockID : ID) : manager σ × Bool :=
  let updated := decide (m.preferred = blockID)
  ({ m with preferred := blockID }, updated)

/-- The method `Preferred` of `manager`. -/
def Preferred {σ : Type} (m : manager σ) : ID :=
  m.preferred

/-- The struct `MempoolTxVerifier` handed to `tx.Unsigned.Visit` by `VerifyTx`; `τ` is the
type of transactions. -/
structure MempoolTxVerifier (σ τ : Type) where
  Backend : Backend
  ParentID : ID
  StateVersions : manager σ
  Tx : τ

/-- The outcome of `VerifyTx`: the manager afterwards, the verifiers that were run, and the
returned error (`none` is Go's nil). -/
structure VerifyOutcome (σ τ : Type) where
  state : manager σ
  visited : List (MempoolTxVerifier σ τ)
  err : Option Error

/-- The method `VerifyTx` of `manager`; `visit` is `tx.Unsigned.Visit`, the transaction
verification performed outside this package. -/
def VerifyTx {σ τ : Type} (visit : MempoolTxVerifier σ τ → Option Error)
    (m : manager σ) (tx : τ) : VerifyOutcome σ τ :=
  if !m.txExecutorBackend.Bootstrapped then
    ⟨m, [], some Error.ErrChainNotSynced⟩
  else
    let verifier : MempoolTxVerifier σ τ :=
      { Backend := m.txExecutorBackend
        ParentID := m.preferred
        StateVersions := m
        Tx := tx }
    ⟨m, [verifier], visit verifier⟩

end executor

/-! ## Concrete states and environments -/

namespace p2p

/-- A validator state whose cache holds node 1 and whose last refresh was at time 0, with
a staleness bound of 10. -/
def staleValidators : Validators :=
  { subnetID := 7, validatorIDs := ⟨[1]⟩, lastUpdated := 0, maxValidatorSetStaleness := 10 }

/-- An environment read at time `t` in which every peer is connected and
`GetCurrentHeight` fails. -/
def heightFailsAt (t : Int) : Env :=
  { peersHas := fun _ => true
    now := t
    nowStamp := t
    GetCurrentHeight := .error (.other 1)
    GetValidatorSet := fun _ _ => .ok []
    Sample := fun s limit => s.elements.take limit.toNat }

/-- An environment read at time `t` in which `GetCurrentHeight` answers 3 and
`GetValidatorSet` fails. -/
def setFailsAt (t : Int) : Env :=
  { peersHas := fun _ => true
    now := t
    nowStamp := t
    GetCurrentHeight := .ok 3
    GetValidatorSet := fun _ _ => .error (.other 2)
    Sample := fun s limit => s.elements.take limit.toNat }

/-- An environment read at time `t` (stamped at `t + 1`) in which nodes 2 and 4 are
connected, the height is 3, and the validator set of subnet 7 at height 3 is
`{2 ↦ 50, 3 ↦ 20, 4 ↦ 30}` while every other request fails. -/
def healthyAt (t : Int) : Env :=
  { peersHas := fun n => n == 2 || n == 4
    now := t
    nowStamp := t + 1
    GetCurrentHeight := .ok 3
    GetValidatorSet := fun h subnet =>
      if h = 3 ∧ subnet = 7 then .ok [(2, 50), (3, 20), (4, 30)] else .error (.other 9)
    Sample := fun s limit => s.elements.take limit.toNat }

end p2p

namespace executor

/-- A bootstrapped manager over unit pending states, preferring block 1. -/
def syncedManager : manager Unit :=
  { backend := { lastAccepted := 1, blkIDToState := [(4, ())] }
    preferred := 1
    txExecutorBackend := { Bootstrapped := true } }

/-- A manager that is still bootstrapping. -/
def syncingManager : manager Unit :=
  NewManager 1 { Bootstrapped := false }

/-- A transaction verifier that rejects, with the parent id as error code, every
transaction whose number is odd. -/
def oddRejecting (verifier : MempoolTxVerifier Unit Nat) : Option Error :=
  if verifier.Tx % 2 = 1 then some (.other verifier.ParentID) else none

end executor

/-! ## Auxiliary lemmas -/

namespace p2p

theorem timeSince_mono_left (t : Int) {a b : Int} (h : a ≤ b) :
    timeSince a t ≤ timeSince b t := by
  unfold timeSince minDuration maxDuration
  split_ifs <;> omega

theorem timeSince_anti_right (now : Int) {s t : Int} (h : s ≤ t) :
    timeSince now t ≤ timeSince now s := by
  unfold timeSince minDuration maxDuration
  split_ifs <;> omega

/-- For a bound above the smallest duration, a raw difference below the bound gives a
`time.Since` below the bound. -/
theorem timeSince_lt_of_sub_lt {now t d : Int} (hd : minDuration < d) (h : now - t < d) :
    timeSince now t < d := by
  unfold timeSince minDuration maxDuration at *
  split_ifs <;> omega

theorem keepConnected_foldl (peersHas : NodeID → Bool) (l acc : List NodeID) :
    l.foldl (fun sampled validatorID =>
        if !peersHas validatorID then sampled else sampled ++ [validatorID]) acc
      = acc ++ l.filter peersHas := by
  induction l generalizing acc with
  | nil => simp
  | cons x xs ih =>
    simp only [List.foldl_cons, ih]
    cases hx : peersHas x <;> simp [List.filter_cons, hx]

theorem keepConnected_eq_filter (peersHas : NodeID → Bool) (l : List NodeID) :
    keepConnected peersHas l = l.filter peersHas := by
  unfold keepConnected
  rw [keepConnected_foldl, List.nil_append]

theorem mem_foldl_Add (m : List (NodeID × Nat)) (s : SampleableSet) (n : NodeID) :
    n ∈ (m.foldl (fun s entry => s.Add entry.1) s).elements
      ↔ n ∈ s.elements ∨ n ∈ m.map Prod.fst := by
  induction m generalizing s with
  | nil => simp
  | cons x xs ih =>
    simp only [List.foldl_cons, ih, List.map_cons, List.mem_cons]
    unfold SampleableSet.Add
    split_ifs with hx
    · constructor
      · rintro (h | h)
        · exact Or.inl h
        · exact Or.inr (Or.inr h)
      · rintro (h | h | h)
        · exact Or.inl h
        · exact Or.inl (h ▸ hx)
        · exact Or.inr h
    · simp only [List.mem_append, List.mem_singleton]
      tauto

theorem nodup_foldl_Add (m : List (NodeID × Nat)) (s : SampleableSet)
    (hs : s.elements.Nodup) :
    (m.foldl (fun s entry => s.Add entry.1) s).elements.Nodup := by
  induction m generalizing s with
  | nil => simpa using hs
  | cons x xs ih =>
    simp only [List.foldl_cons]
    apply ih
    unfold SampleableSet.Add
    split_ifs with hx
    · exact hs
    · exact List.Nodup.append hs (List.nodup_singleton _) (by simpa using hx)

theorem refresh_gated {env : Env} {v : Validators}
    (h : timeSince env.now v.lastUpdated < v.maxValidatorSetStaleness) :
    refresh env v = ⟨v, [], ()⟩ := by
  simp [refresh, h]

theorem refresh_height_error {env : Env} {v : Validators} {err : Error}
    (h : v.maxValidatorSetStaleness ≤ timeSince env.now v.lastUpdated)
    (herr : env.GetCurrentHeight = .error err) :
    refresh env v =
      ⟨{ v with validatorIDs := ⟨[]⟩ },
        [.GetCurrentHeight, .Warn "failed to get current height" err], ()⟩ := by
  simp [refresh, not_lt.mpr h, herr, SampleableSet.Clear]

theorem refresh_set_error {env : Env} {v : Validators} {height : Nat} {err : Error}
    (h : v.maxValidatorSetStaleness ≤ timeSince env.now v.lastUpdated)
    (hheight : env.GetCurrentHeight = .ok height)
    (herr : env.GetValidatorSet height v.subnetID = .error err) :
    refresh env v =
      ⟨{ v with validatorIDs := ⟨[]⟩ },
        [.GetCurrentHeight, .GetValidatorSet height v.subnetID,
          .Warn "failed to get validator set" err], ()⟩ := by
  simp [refresh, not_lt.mpr h, hheight, herr, SampleableSet.Clear]

theorem refresh_ok {env : Env} {v : Validators} {height : Nat} {set : List (NodeID × Nat)}
    (h : v.maxValidatorSetStaleness ≤ timeSince env.now v.lastUpdated)
    (hheight : env.GetCurrentHeight = .ok height)
    (hset : env.GetValidatorSet height v.subnetID = .ok set) :
    refresh env v =
      ⟨{ v with
          validatorIDs := set.foldl (fun s entry => s.Add entry.1) ⟨[]⟩
          lastUpdated := env.nowStamp },
        [.GetCurrentHeight, .GetValidatorSet height v.subnetID], ()⟩ := by
  simp [refresh, not_lt.mpr h, hheight, hset, SampleableSet.Clear]

/-- A `refresh` for which the staleness period has elapsed makes exactly one attempt. -/
theorem attempts_refresh_stale {env : Env} {v : Validators}
    (h : v.maxValidatorSetStaleness ≤ timeSince env.now v.lastUpdated) :
    attempts (refresh env v).events = 1 := by
  rcases hh : env.GetCurrentHeight with e | height
  · rw [refresh_height_error h hh]
    simp [attempts, List.count_cons]
  · rcases hs : env.GetValidatorSet height v.subnetID with e | set
    · rw [refresh_set_error h hh hs]
      simp [attempts, List.count_cons]
    · rw [refresh_ok h hh hs]
      simp [attempts, List.count_cons]

/-- A single `refresh` makes at most one attempt. -/
theorem attempts_refresh_le_one (env : Env) (v : Validators) :
    attempts (refresh env v).events ≤ 1 := by
  by_cases h : timeSince env.now v.lastUpdated < v.maxValidatorSetStaleness
  · rw [refresh_gated h]
    simp [attempts]
  · exact (attempts_refresh_stale (not_lt.mp h)).le

end p2p

namespace p2p

/-- A refresh whose fetch fails after the staleness period has elapsed leaves every field
but the cached set as it was, and leaves the cached set empty. -/
theorem refresh_failed {env : Env} {v : Validators}
    (hstale : v.maxValidatorSetStaleness ≤ timeSince env.now v.lastUpdated)
    (hfail : (∃ err, env.GetCurrentHeight = .error err) ∨
      (∃ height err, env.GetCurrentHeight = .ok height ∧
        env.GetValidatorSet height v.subnetID = .error err)) :
    (refresh env v).state = { v with validatorIDs := ⟨[]⟩ } := by
  rcases hfail with ⟨err, herr⟩ | ⟨height, err, hheight, herr⟩
  · rw [refresh_height_error hstale herr]
  · rw [refresh_set_error hstale hheight herr]

end p2p

/-! ## Properties of the block-executor manager -/

namespace executor

/-- C2: for every manager and every block id, `SetPreference` returns true exactly when
the preference stored before the call already equals the id (and false otherwise). -/
theorem setPreference_returns_whether_equal {σ : Type} (m : manager σ) (blockID : ID) :
    ((SetPreference m blockID).2 = true ↔ Preferred m = blockID) ∧
    ((SetPreference m blockID).2 = false ↔ Preferred m ≠ blockID) := by
  simp [SetPreference, Preferred]

/-- C3 (evaluation of the code): starting from preference 1, `SetPreference 2` changes the
stored preference and returns `updated = false`, while `SetPreference 1` leaves the stored
preference as it is and returns `updated = true`. -/
theorem setPreference_updated_inverted :
    (Preferred (SetPreference syncedManager 2).1 ≠ Preferred syncedManager ∧
      (SetPreference syncedManager 2).2 = false) ∧
    (Preferred (SetPreference syncedManager 1).1 = Preferred syncedManager ∧
      (SetPreference syncedManager 1).2 = true) := by
  decide

/-- C4: for every manager and every block id, known or not, `Preferred` after
`SetPreference blockID` is `blockID`; `SetPreference` is total and leaves the backend
(last accepted block and pending-state map) and the executor backend as they were. -/
theorem setPreference_then_preferred {σ : Type} (m : manager σ) (blockID : ID) :
    Preferred (SetPreference m blockID).1 = blockID ∧
    (SetPreference m blockID).1.backend = m.backend ∧
    (SetPreference m blockID).1.backend.lastAccepted = m.backend.lastAccepted ∧
    (SetPreference m blockID).1.backend.blkIDToState = m.backend.blkIDToState ∧
    (SetPreference m blockID).1.txExecutorBackend = m.txExecutorBackend :=
  ⟨rfl, rfl, rfl, rfl, rfl⟩

/-- C5: while the bootstrapped flag reads false, `VerifyTx` returns `ErrChainNotSynced`,
runs no transaction verifier and leaves the manager as it was; when the flag reads true,
it runs exactly one verifier, built with `ParentID` equal to the current preference, and
returns that verifier's result, again leaving the manager as it was. -/
theorem verifyTx_gate {σ τ : Type} (visit : MempoolTxVerifier σ τ → Option Error)
    (m : manager σ) (tx : τ) :
    (m.txExecutorBackend.Bootstrapped = false →
      (VerifyTx visit m tx).err = some Error.ErrChainNotSynced ∧
      (VerifyTx visit m tx).visited = [] ∧
      (VerifyTx visit m tx).state = m) ∧
    (m.txExecutorBackend.Bootstrapped = true →
      (VerifyTx visit m tx).err =
        visit { Backend := m.txExecutorBackend, ParentID := Preferred m,
                StateVersions := m, Tx := tx } ∧
      (VerifyTx visit m tx).visited =
        [{ Backend := m.txExecutorBackend, ParentID := Preferred m,
           StateVersions := m, Tx := tx }] ∧
      (VerifyTx visit m tx).state = m) := by
  constructor
  · intro h
    simp [VerifyTx, h]
  · intro h
    simp [VerifyTx, h, Preferred]

/-- Witness of C5: a bootstrapping manager refuses transaction 3 unverified, and a
bootstrapped manager preferring block 1 answers what the verifier answers for parent 1. -/
theorem verifyTx_gate_witness :
    ((VerifyTx oddRejecting syncingManager 3).err = some Error.ErrChainNotSynced ∧
      (VerifyTx oddRejecting syncingManager 3).visited = [] ∧
      (VerifyTx oddRejecting syncingManager 3).state = syncingManager) ∧
    (VerifyTx oddRejecting syncedManager 3).err = some (Error.other 1) :=
  ⟨(verifyTx_gate oddRejecting syncingManager 3).1 rfl,
    ((verifyTx_gate oddRejecting syncedManager 3).2 rfl).1⟩

end executor

/-! ## Properties of the validator-set sampler -/

namespace p2p

/-- C6: for every state, environment and node id, `Has` returns true if and only if the
peer set reports the node connected and the node is a member of the cached set as left by
the refresh performed at the start of the call; that refresh is the only effect of `Has`. -/
theorem has_iff_connected_and_cached (env : Env) (v : Validators) (nodeID : NodeID) :
    ((Has env v nodeID).value = true ↔
      env.peersHas nodeID = true ∧ nodeID ∈ (refresh env v).state.validatorIDs.elements) ∧
    (Has env v nodeID).state = (refresh env v).state ∧
    (Has env v nodeID).events = (refresh env v).events := by
  simp [Has, SampleableSet.Contains]

/-- C7: when the draw from the cached set (as left by the refresh) has at most `limit`
elements, all distinct and all members of the cached set, which forces `0 ≤ limit`, then
`Sample limit` returns the connected elements of the draw in the order of the draw: a
sublist of it of length at most `limit`, without duplicates, whose elements are connected
members of the cached set; for `limit = 0` it is empty. -/
theorem sample_filters_connected (env : Env) (v : Validators) (limit : Int)
    (hlen : ((env.Sample (refresh env v).state.validatorIDs limit).length : Int) ≤ limit)
    (hnodup : (env.Sample (refresh env v).state.validatorIDs limit).Nodup)
    (hmem : ∀ n ∈ env.Sample (refresh env v).state.validatorIDs limit,
      n ∈ (refresh env v).state.validatorIDs.elements) :
    0 ≤ limit ∧
    (Sample env v limit).value =
      (env.Sample (refresh env v).state.validatorIDs limit).filter env.peersHas ∧
    ((Sample env v limit).value).Sublist
      (env.Sample (refresh env v).state.validatorIDs limit) ∧
    (((Sample env v limit).value).length : Int) ≤ limit ∧
    (∀ n, n ∈ (Sample env v limit).value ↔
      n ∈ env.Sample (refresh env v).state.validatorIDs limit ∧ env.peersHas n = true) ∧
    (∀ n ∈ (Sample env v limit).value,
      env.peersHas n = true ∧ n ∈ (Sample env v limit).state.validatorIDs.elements) ∧
    ((Sample env v limit).value).Nodup ∧
    (limit = 0 → (Sample env v limit).value = []) := by
  have hval : (Sample env v limit).value =
      (env.Sample (refresh env v).state.validatorIDs limit).filter env.peersHas := by
    simp [Sample, keepConnected_eq_filter]
  have hstate : (Sample env v limit).state = (refresh env v).state := rfl
  have hsub : ((Sample env v limit).value).Sublist
      (env.Sample (refresh env v).state.validatorIDs limit) := by
    rw [hval]
    exact List.filter_sublist _
  have hle : (((Sample env v limit).value).length : Int) ≤ limit :=
    le_trans (Int.ofNat_le.mpr hsub.length_le) hlen
  refine ⟨le_trans (Int.ofNat_nonneg _) hlen, hval, hsub, hle, ?_, ?_, hnodup.sublist hsub, ?_⟩
  · intro n
    rw [hval, List.mem_filter]
  · intro n hn
    rw [hval, List.mem_filter] at hn
    rw [hstate]
    exact ⟨hn.2, hmem n hn.1⟩
  · intro h0
    have : ((Sample env v limit).value).length = 0 := by omega
    exact List.length_eq_zero.mp this

/-- Witness of C7: with validators 2, 3, 4 of which 2 and 4 are connected, a draw of two
from the refreshed cache yields `[2]`. -/
theorem sample_filters_connected_witness :
    (Sample (healthyAt 100) staleValidators 2).value = [2] ∧
    ((Sample (healthyAt 100) staleValidators 2).value).Nodup :=
  have h := sample_filters_connected (healthyAt 100) staleValidators 2
    (by decide) (by decide) (by decide)
  ⟨h.2.1.trans (by decide), h.2.2.2.2.2.2.1⟩

/-- C1 (counterexample): node 1 is cached and connected, the staleness period has elapsed
and `GetCurrentHeight` fails; after `Has 1` the cached set differs from the one before the
call and `Has 1` has returned false. -/
theorem has_stale_on_failure_fails :
    1 ∈ staleValidators.validatorIDs.elements ∧
    (heightFailsAt 100).peersHas 1 = true ∧
    staleValidators.maxValidatorSetStaleness ≤
      timeSince (heightFailsAt 100).now staleValidators.lastUpdated ∧
    (heightFailsAt 100).GetCurrentHeight = .error (.other 1) ∧
    (Has (heightFailsAt 100) staleValidators 1).state.validatorIDs ≠
      staleValidators.validatorIDs ∧
    (Has (heightFailsAt 100) staleValidators 1).value = false :=
  ⟨by decide, rfl, by decide, rfl, by decide, by decide⟩

/-- C1 (amended): if a call of `Has n` triggers a refresh (the staleness period has elapsed)
and `GetCurrentHeight` or `GetValidatorSet` fails, then the cached set after the call is
empty, so it differs from the set before the call whenever that one contained `n`, and
`Has n` returns false. -/
theorem has_after_failed_refresh (env : Env) (v : Validators) (nodeID : NodeID)
    (hstale : v.maxValidatorSetStaleness ≤ timeSince env.now v.lastUpdated)
    (hfail : (∃ err, env.GetCurrentHeight = .error err) ∨
      (∃ height err, env.GetCurrentHeight = .ok height ∧
        env.GetValidatorSet height v.subnetID = .error err)) :
    (Has env v nodeID).state.validatorIDs.elements = [] ∧
    (nodeID ∈ v.validatorIDs.elements →
      (Has env v nodeID).state.validatorIDs ≠ v.validatorIDs) ∧
    (Has env v nodeID).value = false := by
  have hstate : (Has env v nodeID).state = { v with validatorIDs := ⟨[]⟩ } :=
    refresh_failed hstale hfail
  have hval : (Has env v nodeID).value =
      (env.peersHas nodeID && (Has env v nodeID).state.validatorIDs.Contains nodeID) := rfl
  refine ⟨by rw [hstate], ?_, ?_⟩
  · intro hmem heq
    rw [hstate] at heq
    rw [← heq] at hmem
    simp at hmem
  · rw [hval, hstate]
    simp [SampleableSet.Contains]

/-- Witness of C1 (amended): `GetValidatorSet` fails for a stale state caching node 1. -/
theorem has_after_failed_refresh_witness :
    (Has (setFailsAt 100) staleValidators 1).state.validatorIDs.elements = [] ∧
    (Has (setFailsAt 100) staleValidators 1).value = false :=
  have h := has_after_failed_refresh (setFailsAt 100) staleValidators 1 (by decide)
    (Or.inr ⟨3, .other 2, rfl, rfl⟩)
  ⟨h.1, h.2.2⟩

/-- C8 (counterexample): two `Sample` calls one time unit apart, with a staleness bound of
10, whose first fetch fails: both calls attempt a refresh, two attempts combined. -/
theorem two_samples_both_attempt :
    timeSince (heightFailsAt 101).now (heightFailsAt 100).now <
      staleValidators.maxValidatorSetStaleness ∧
    ¬ attempts ((Sample (heightFailsAt 100) staleValidators 2).events ++
        (Sample (heightFailsAt 101)
          (Sample (heightFailsAt 100) staleValidators 2).state 2).events) ≤ 1 := by
  decide

/-- C8 (amended): when the time elapsed since `lastUpdated` is below
`maxValidatorSetStaleness`, `refresh` is a no-op: it calls neither `GetCurrentHeight` nor
`GetValidatorSet` (nor anything else) and leaves the state, so the cached set and
`lastUpdated`, as it was.  Consequently two `Sample` calls separated by less than
`maxValidatorSetStaleness` make at most one refresh attempt combined, provided the first
call makes no attempt or its fetches succeed (the clock not running backwards between the
two readings of the first call). -/
theorem staleness_gate (env env2 : Env) (v : Validators) (limit limit2 : Int) :
    (timeSince env.now v.lastUpdated < v.maxValidatorSetStaleness →
      (refresh env v).state = v ∧ (refresh env v).events = []) ∧
    (env.now ≤ env.nowStamp →
      timeSince env2.now env.now < v.maxValidatorSetStaleness →
      (timeSince env.now v.lastUpdated < v.maxValidatorSetStaleness ∨
        ∃ height set, env.GetCurrentHeight = .ok height ∧
          env.GetValidatorSet height v.subnetID = .ok set) →
      attempts ((Sample env v limit).events ++
        (Sample env2 (Sample env v limit).state limit2).events) ≤ 1) := by
  constructor
  · intro h
    rw [refresh_gated h]
    exact ⟨rfl, rfl⟩
  · intro hclock hsep hfirst
    have he1 : (Sample env v limit).events = (refresh env v).events := rfl
    have hs1 : (Sample env v limit).state = (refresh env v).state := rfl
    have he2 : ∀ w, (Sample env2 w limit2).events = (refresh env2 w).events := fun _ => rfl
    rw [he1, hs1, he2, attempts, List.count_append]
    by_cases hgate : timeSince env.now v.lastUpdated < v.maxValidatorSetStaleness
    · rw [refresh_gated hgate]
      have := attempts_refresh_le_one env2 v
      simpa [attempts] using this
    · rcases hfirst with hgate2 | ⟨height, set, hheight, hset⟩
      · exact absurd hgate2 hgate
      · rw [refresh_ok (not_lt.mp hgate) hheight hset]
        have hfresh : timeSince env2.now env.nowStamp < v.maxValidatorSetStaleness :=
          lt_of_le_of_lt (timeSince_anti_right env2.now hclock) hsep
        rw [refresh_gated (by simpa using hfresh)]
        simp [List.count_cons]

/-- Witness of C8 (amended): a fresh state is left alone, and two healthy `Sample` calls five
time units apart, with a staleness bound of 10, make one attempt combined. -/
theorem staleness_gate_witness :
    ((refresh (healthyAt 5) staleValidators).state = staleValidators ∧
      (refresh (healthyAt 5) staleValidators).events = []) ∧
    attempts ((Sample (healthyAt 100) staleValidators 2).events ++
      (Sample (healthyAt 105)
        (Sample (healthyAt 100) staleValidators 2).state 2).events) ≤ 1 :=
  ⟨(staleness_gate (healthyAt 5) (healthyAt 6) staleValidators 2 2).1 (by decide),
    (staleness_gate (healthyAt 100) (healthyAt 105) staleValidators 2 2).2
      (by decide) (by decide) (Or.inr ⟨3, [(2, 50), (3, 20), (4, 30)], rfl, rfl⟩)⟩

/-- C9: when the staleness period has elapsed and `GetCurrentHeight` or `GetValidatorSet`
fails, the refresh made by `Has` or `Sample` leaves `lastUpdated` as it was, so that the
next `Has` or `Sample` call (at a clock reading that is not earlier) attempts the fetch
again; the failing call returns no error but its ordinary value, computed from the cache it
is left with. -/
theorem failed_refresh_retries (env env2 : Env) (v : Validators)
    (nodeID nodeID2 : NodeID) (limit limit2 : Int)
    (hstale : v.maxValidatorSetStaleness ≤ timeSince env.now v.lastUpdated)
    (hfail : (∃ err, env.GetCurrentHeight = .error err) ∨
      (∃ height err, env.GetCurrentHeight = .ok height ∧
        env.GetValidatorSet height v.subnetID = .error err))
    (hlater : env.now ≤ env2.now) :
    (refresh env v).state.lastUpdated = v.lastUpdated ∧
    (Has env v nodeID).state.lastUpdated = v.lastUpdated ∧
    (Sample env v limit).state.lastUpdated = v.lastUpdated ∧
    attempts (Has env2 (Has env v nodeID).state nodeID2).events = 1 ∧
    attempts (Sample env2 (Has env v nodeID).state limit2).events = 1 ∧
    attempts (Has env2 (Sample env v limit).state nodeID2).events = 1 ∧
    attempts (Sample env2 (Sample env v limit).state limit2).events = 1 ∧
    (Has env v nodeID).value =
      (env.peersHas nodeID && (refresh env v).state.validatorIDs.Contains nodeID) ∧
    (Sample env v limit).value =
      keepConnected env.peersHas (env.Sample (refresh env v).state.validatorIDs limit) := by
  have hstate : (refresh env v).state = { v with validatorIDs := ⟨[]⟩ } :=
    refresh_failed hstale hfail
  have hlast : (refresh env v).state.lastUpdated = v.lastUpdated := by rw [hstate]
  have hnext : attempts (refresh env2 (refresh env v).state).events = 1 := by
    apply attempts_refresh_stale
    rw [hstate]
    exact le_trans hstale (timeSince_mono_left _ hlater)
  exact ⟨hlast, hlast, hlast, hnext, hnext, hnext, hnext, rfl, rfl⟩

/-- Witness of C9: a failed height fetch at time 100 is followed by a new attempt at time
101. -/
theorem failed_refresh_retries_witness :
    (Has (heightFailsAt 100) staleValidators 1).state.lastUpdated = 0 ∧
    attempts (Sample (healthyAt 101)
      (Has (heightFailsAt 100) staleValidators 1).state 2).events = 1 :=
  have h := failed_refresh_retries (heightFailsAt 100) (healthyAt 101) staleValidators 1 1 2 2
    (by decide) (Or.inl ⟨.other 1, rfl⟩) (by decide)
  ⟨h.2.1, h.2.2.2.2.1⟩

/-- C10: when the staleness period has elapsed, `GetCurrentHeight` returns `height` and
`GetValidatorSet height subnetID` returns the map `set`, then after `refresh` the cached set
has exactly the keys of `set` as members (without duplicates, and computed from the keys
alone), the calls made are `GetCurrentHeight` followed by `GetValidatorSet` at that height
for the configured subnet, and `lastUpdated` is the clock reading taken by `time.Now()`. -/
theorem refresh_success_repopulates (env : Env) (v : Validators) (height : Nat)
    (set : List (NodeID × Nat))
    (hstale : v.maxValidatorSetStaleness ≤ timeSince env.now v.lastUpdated)
    (hheight : env.GetCurrentHeight = .ok height)
    (hset : env.GetValidatorSet height v.subnetID = .ok set) :
    (∀ n, n ∈ (refresh env v).state.validatorIDs.elements ↔ n ∈ set.map Prod.fst) ∧
    (refresh env v).state.validatorIDs.elements.Nodup ∧
    (refresh env v).state.validatorIDs =
      (set.map Prod.fst).foldl SampleableSet.Add ⟨[]⟩ ∧
    (refresh env v).events = [.GetCurrentHeight, .GetValidatorSet height v.subnetID] ∧
    (refresh env v).state.lastUpdated = env.nowStamp ∧
    (refresh env v).state.subnetID = v.subnetID ∧
    (refresh env v).state.maxValidatorSetStaleness = v.maxValidatorSetStaleness := by
  rw [refresh_ok hstale hheight hset]
  refine ⟨?_, ?_, ?_, rfl, rfl, rfl, rfl⟩
  · intro n
    simp only [mem_foldl_Add]
    simp
  · exact nodup_foldl_Add set ⟨[]⟩ List.nodup_nil
  · simp only [List.foldl_map]

/-- Witness of C10: node 1, cached before, is absent from the fetched set `{2, 3, 4}` and is
gone after the refresh, which stamps the time 101. -/
theorem refresh_success_repopulates_witness :
    (refresh (healthyAt 100) staleValidators).state.validatorIDs.elements = [2, 3, 4] ∧
    (refresh (healthyAt 100) staleValidators).events =
      [.GetCurrentHeight, .GetValidatorSet 3 7] ∧
    (refresh (healthyAt 100) staleValidators).state.lastUpdated = 101 :=
  have h := refresh_success_repopulates (healthyAt 100) staleValidators 3
    [(2, 50), (3, 20), (4, 30)] (by decide) rfl rfl
  ⟨(congrArg SampleableSet.elements h.2.2.1).trans (by decide), h.2.2.2.1, h.2.2.2.2.1⟩

end p2p

end Avalanchego
